import Mathlib

/-!
Shallow embedding of the playback/progress engine of the OfflineReader
repository (the `AudioPlayer` class of the audio engine module).

The engine runs on one of two backends, selected once at process start.
All claims under verification concern the native-backend behaviour (plus
the web half of `seek`), so the model below embeds the engine as it
executes on the native platform (`isNative = true`): state mutations are
modelled as pure functions on `PlayerState`, and every interaction with
the outside world (native backend commands, progress persistence, the
registered chapter-end callback) is modelled as an emitted `Output`.

Modelling conventions, all noted at the definition they concern:
* JS numbers are modelled as `ℚ` (no claim depends on float rounding);
  `Math.round` is modelled exactly (round half towards positive infinity).
* JS `indexOf` (first index or `-1`) is `jsIndexOf`, returning `ℤ`.
* JS string truthiness (`!this._bookId`) is `truthyStr` on `Option String`
  (`none` and `some ""` are falsy).
* The per-day stats bucket (`getStat`/`saveStat` on today's date) is the
  `todayMinutes` field of the state: every claim stays within one day, so
  the keyed store degenerates to a single accumulator.
* `ProgressRecord.updatedAt` (a wall-clock timestamp) is omitted from the
  emitted persist record; no claim refers to it.
* Observer notification (`notify`) carries no state and is not modelled;
  "no observable change" is expressed as "state unchanged and no outputs".
* The chapter-end callback is modelled as always registered (the
  `Output.chapterEnd` emission); the outro flag is set independently of
  registration in the source and in the model alike.
-/

namespace OfflineReader

/-- Skip settings of the engine (`_skipSettings` field). -/
structure SkipSettings where
  enabled : Bool
  introSeconds : ℚ
  outroSeconds : ℚ
deriving DecidableEq

/-- A chapter record as returned by `getChaptersByBook` (fields the engine
reads: `id`, `title`, `audioPath`, `order`). -/
structure Chapter where
  id : String
  title : String
  audioPath : Option String
  order : ℤ
deriving DecidableEq

/-- A book record as returned by `getBook` (fields the engine reads:
`title`, `coverImage`). -/
structure Book where
  title : String
  coverImage : Option String
deriving DecidableEq

/-- The mutable engine state (the private fields of `AudioPlayer` that the
native-backend code paths read or write). -/
structure PlayerState where
  bookId : Option String
  chapterId : Option String
  chapterIndex : ℤ
  totalChapters : ℕ
  chapterIds : List String
  speed : ℚ
  skipSettings : SkipSettings
  skipOutroTriggered : Bool
  nativePosition : ℚ
  nativeDuration : ℚ
  nativePlaying : Bool
  lastStatUpdate : ℚ
  todayMinutes : ℚ
deriving DecidableEq

/-- The snapshot returned by the native backend's `getState()`. -/
structure BackendState where
  isPlaying : Bool
  position : ℚ
  duration : ℚ
  index : ℤ
deriving DecidableEq

/-- One `positionUpdate` event from the native backend, together with the
wall-clock instant (`Date.now()`, in milliseconds) at which the handler
runs (consumed by the stats heartbeat). -/
structure PosEvent where
  position : ℚ
  duration : ℚ
  now : ℚ
deriving DecidableEq

/-- Observable effects of an engine step: commands issued to the native
backend (`MediaControl.*`), progress persists (`saveProgress`), and
invocations of the registered chapter-end callback. -/
inductive Output where
  | loadPlaylist (paths titles ids : List String) (artist : String)
      (startIndex : ℕ) (startPosition : ℚ) (speed : ℚ) (coverImage : String)
  | play
  | pause
  | seekTo (position : ℚ)
  | setSpeed (speed : ℚ)
  | stopService
  | persist (bookId chapterId : String) (position : ℚ) (speed : ℚ)
  | chapterEnd
deriving DecidableEq

/-- JS string truthiness of a nullable string: `null` and `""` are falsy. -/
def truthyStr : Option String → Bool
  | none => false
  | some s => !(s = "")

/-- Helper for `jsIndexOf`: index of the first occurrence of `x`, counting
from `i`, or `-1`. -/
def jsIndexOfAux (x : String) : List String → ℕ → ℤ
  | [], _ => -1
  | y :: ys, i => if y = x then (i : ℤ) else jsIndexOfAux x ys (i + 1)

/-- JS `Array.prototype.indexOf`: index of the first occurrence, `-1` when
absent. -/
def jsIndexOf (l : List String) (x : String) : ℤ :=
  jsIndexOfAux x l 0

/-- Stable insertion of a chapter into a list already sorted by `order`
(the inserted element goes before the first element of equal or larger
`order` never — it goes after all strictly-smaller and before the first
with `order` at least its own only when its own is strictly smaller;
equal orders keep original relative positions). -/
def insertByOrder (c : Chapter) : List Chapter → List Chapter
  | [] => [c]
  | d :: ds => if c.order ≤ d.order then c :: d :: ds else d :: insertByOrder c ds

/-- Model of `chapters.sort((a, b) => a.order - b.order)` (a stable sort by
the `order` field, as guaranteed by modern JS engines). -/
def sortByOrder : List Chapter → List Chapter
  | [] => []
  | c :: cs => insertByOrder c (sortByOrder cs)

/-- The chapters of the book that survive the native-path filter: the
engine iterates the sorted chapter list and keeps exactly those with an
`audioPath` (`if (ch.audioPath) { ... }`). -/
def availChapters (db : List Chapter) : List Chapter :=
  (sortByOrder db).filter (fun c => c.audioPath.isSome)

/-- The `paths` array built by the native load loop. On `availChapters`
every `audioPath` is present (the list is filtered on `isSome`), so the
`getD` default is never used. -/
def availPaths (db : List Chapter) : List String :=
  (availChapters db).map (fun c => c.audioPath.getD "")

/-- The `titles` array built by the native load loop. -/
def availTitles (db : List Chapter) : List String :=
  (availChapters db).map (fun c => c.title)

/-- The `ids` array built by the native load loop. -/
def availIds (db : List Chapter) : List String :=
  (availChapters db).map (fun c => c.id)

/-- The expression `startIdx >= 0 ? startIdx : 0` applied to `ids.indexOf(chapterId)`. -/
def nativeStartIdx (db : List Chapter) (chapterId : String) : ℕ :=
  let j := jsIndexOf (availIds db) chapterId
  if 0 ≤ j then j.toNat else 0

/-- Model of `book?.title || '静听'` (JS `||`: an absent book or empty title falls
back to the default artist name). -/
def artistOf : Option Book → String
  | none => "静听"
  | some bk => if bk.title = "" then "静听" else bk.title

/-- Model of `book?.coverImage || ''`. -/
def coverOf : Option Book → String
  | none => ""
  | some bk => bk.coverImage.getD ""

/-- The engine state as constructed (constructor field initialisers; the
skip settings are the in-code defaults used when nothing is stored). -/
def initState : PlayerState where
  bookId := none
  chapterId := none
  chapterIndex := 0
  totalChapters := 0
  chapterIds := []
  speed := 1
  skipSettings := { enabled := false, introSeconds := 30, outroSeconds := 15 }
  skipOutroTriggered := false
  nativePosition := 0
  nativeDuration := 0
  nativePlaying := false
  lastStatUpdate := 0
  todayMinutes := 0

/-- Model of `persistProgress()`: saves a progress record when both `bookId` and
`chapterId` are truthy, at the native reported position; otherwise a
no-op. -/
def persistOutputs (s : PlayerState) : List Output :=
  if truthyStr s.bookId ∧ truthyStr s.chapterId then
    [Output.persist (s.bookId.getD "") (s.chapterId.getD "") s.nativePosition s.speed]
  else []

/-- JS `Math.round`: round half towards positive infinity. -/
def jround (q : ℚ) : ℤ :=
  ⌊q + 1 / 2⌋

/-- Model of `recordListeningTime()`: the stats heartbeat. Computes elapsed wall
minutes since `lastStatUpdate`; below the 0.1-minute granularity nothing
happens; above it the timestamp advances, and the elapsed time is added
to today's bucket (rounded to one decimal) unless it exceeds the
300-minute sanity cap, in which case it is discarded. -/
def recordListeningTime (s : PlayerState) (now : ℚ) : PlayerState :=
  if 1 / 10 < (now - s.lastStatUpdate) / 1000 / 60 then
    if 300 < (now - s.lastStatUpdate) / 1000 / 60 then
      { s with lastStatUpdate := now }
    else
      { s with lastStatUpdate := now, todayMinutes := (jround ((s.todayMinutes + (now - s.lastStatUpdate) / 1000 / 60) * 10) : ℚ) / 10 }
  else s

/-- Model of `checkOutroSkip()` on the native backend (`duration`/`currentTime`
read from the native reported fields): fires the chapter-end callback and
sets the one-shot flag when skip is enabled, `outroSeconds > 0`, the flag
has not fired, the duration is known positive, and the remaining time is
in `(0, outroSeconds]`. -/
def checkOutroSkip (s : PlayerState) : PlayerState × List Output :=
  if s.skipSettings.enabled = false ∨ s.skipSettings.outroSeconds ≤ 0 then (s, [])
  else if s.skipOutroTriggered = true then (s, [])
  else if s.nativeDuration ≤ 0 then (s, [])
  else if s.nativeDuration - s.nativePosition ≤ s.skipSettings.outroSeconds ∧
      0 < s.nativeDuration - s.nativePosition then
    ({ s with skipOutroTriggered := true }, [Output.chapterEnd])
  else (s, [])

/-- The `positionUpdate` listener: store reported position/duration, run
the outro check, then the stats heartbeat. -/
def onPositionUpdate (s : PlayerState) (position duration now : ℚ) : PlayerState × List Output :=
  let s1 := { s with nativePosition := position, nativeDuration := duration }
  let r := checkOutroSkip s1
  (recordListeningTime r.1 now, r.2)

/-- The `chapterChanged` listener: accepted only when the reported media
id differs from the engine's current chapter id; on acceptance the index
and id are taken from the event, the reported position resets to 0, and
progress is persisted immediately. -/
def onChapterChanged (s : PlayerState) (index : ℤ) (mediaId : String) : PlayerState × List Output :=
  if s.chapterId ≠ some mediaId then
    let s1 := { s with chapterIndex := index, chapterId := some mediaId, nativePosition := 0 }
    (s1, persistOutputs s1)
  else (s, [])

/-- The `playingChanged` listener: record the reported flag; on start,
reset the heartbeat clock; on stop, run a final heartbeat and persist. -/
def onPlayingChanged (s : PlayerState) (isPlaying : Bool) (now : ℚ) : PlayerState × List Output :=
  let s1 := { s with nativePlaying := isPlaying }
  if isPlaying then ({ s1 with lastStatUpdate := now }, [])
  else
    let s2 := recordListeningTime s1 now
    (s2, persistOutputs s2)

/-- The `completed` listener: mark not-playing and invoke the chapter-end
callback. -/
def onCompleted (s : PlayerState) : PlayerState × List Output :=
  ({ s with nativePlaying := false }, [Output.chapterEnd])

/-- Model of `loadChapter` on the native backend. Identity fields are assigned
first (before any backend interaction); intro-skip replaces a
caller-supplied start position of exactly 0 by `introSeconds` when skip
is enabled and `introSeconds > 0`; then the playlist is built from the
sorted, path-filtered chapters of the book — if no path survives, the
method returns with no backend command; otherwise the index/id list are
replaced by the filtered ones, the intended position is published, the
playlist is submitted, and the heartbeat clock resets. -/
def loadChapterNative (s : PlayerState) (bookId chapterId : String)
    (chapterIds : List String) (startPosition : ℚ) (db : List Chapter)
    (book : Option Book) (now : ℚ) : PlayerState × List Output :=
  let s1 := { s with
    bookId := some bookId
    chapterId := some chapterId
    chapterIds := chapterIds
    chapterIndex := jsIndexOf chapterIds chapterId
    totalChapters := chapterIds.length
    skipOutroTriggered := false }
  let sp := if s.skipSettings.enabled = true ∧ 0 < s.skipSettings.introSeconds ∧
      startPosition = 0 then s.skipSettings.introSeconds else startPosition
  if availPaths db = [] then (s1, [])
  else
    let idx := nativeStartIdx db chapterId
    let s2 := { s1 with
      chapterIndex := (idx : ℤ)
      chapterIds := availIds db
      totalChapters := (availIds db).length
      nativePosition := sp
      nativeDuration := 0
      lastStatUpdate := now }
    (s2, [Output.loadPlaylist (availPaths db) (availTitles db) (availIds db)
      (artistOf book) idx sp s.speed (coverOf book)])

/-- Model of `_reloadNativePlaylist(autoPlay)`: rebuilds the playlist from storage
and resubmits it at the current chapter id and current reported position,
without changing any JS state; when `autoPlay` is false a pause command
follows immediately (the native session auto-plays on load). A falsy book
or chapter id, or an empty filtered playlist, makes it a no-op. -/
def reloadNativePlaylist (s : PlayerState) (db : List Chapter) (book : Option Book)
    (autoPlay : Bool) : List Output :=
  if truthyStr s.bookId ∧ truthyStr s.chapterId then
    if availPaths db = [] then []
    else
      Output.loadPlaylist (availPaths db) (availTitles db) (availIds db)
        (artistOf book) (nativeStartIdx db (s.chapterId.getD ""))
        s.nativePosition s.speed (coverOf book)
      :: (if autoPlay then [] else [Output.pause])
  else []

/-- The `serviceReset` listener: mark not-playing, zero the reported
position and duration, then — if a book and chapter are loaded and the id
list is nonempty — silently reload the playlist without auto-playing.
Note the position is zeroed before the reload reads it. -/
def onServiceReset (s : PlayerState) (db : List Chapter) (book : Option Book) :
    PlayerState × List Output :=
  let s1 := { s with nativePlaying := false, nativePosition := 0, nativeDuration := 0 }
  if truthyStr s1.bookId ∧ truthyStr s1.chapterId ∧ 0 < s1.chapterIds.length then
    (s1, reloadNativePlaylist s1 db book false)
  else (s1, [])

/-- Model of `play()` on the native backend: query `getState()`; if the backend is
not playing with zero duration while a book and chapter are loaded,
reload the playlist with auto-play (no separate play command); otherwise
issue a direct play command. No JS state changes. -/
def playNative (s : PlayerState) (backend : BackendState) (db : List Chapter)
    (book : Option Book) : List Output :=
  if backend.isPlaying = false ∧ backend.duration = 0 ∧
      truthyStr s.bookId = true ∧ truthyStr s.chapterId = true then
    reloadNativePlaylist s db book true
  else [Output.play]

/-- Model of `pause()` on the native backend: a bare pause command (stat flushing
and persistence happen in the `playingChanged` listener on this
backend). -/
def pauseNative (s : PlayerState) : PlayerState × List Output :=
  (s, [Output.pause])

/-- Model of `seek(time)` on the native backend: command the raw requested time,
record it as the reported position, persist. No clamping happens on this
backend. -/
def seekNative (s : PlayerState) (time : ℚ) : PlayerState × List Output :=
  let s1 := { s with nativePosition := time }
  (s1, Output.seekTo time :: persistOutputs s1)

/-- Model of `setSpeed(speed)` on the native backend. -/
def setSpeedNative (s : PlayerState) (speed : ℚ) : PlayerState × List Output :=
  ({ s with speed := speed }, [Output.setSpeed speed])

/-- Model of `stop()` on the native backend: pause, tear down the native session,
reset identity and reported fields to idle defaults (speed, skip settings
and stats survive). -/
def stopNative (s : PlayerState) : PlayerState × List Output :=
  ({ s with
      bookId := none
      chapterId := none
      chapterIds := []
      chapterIndex := 0
      totalChapters := 0
      nativePosition := 0
      nativeDuration := 0
      nativePlaying := false },
    [Output.pause, Output.stopService])

/-- The web media element as far as `seek` reads it: `duration` is `none`
while the metadata is unresolved (JS `NaN`). -/
structure WebAudio where
  currentTime : ℚ
  duration : Option ℚ
deriving DecidableEq

/-- Model of `seek(time)` on the web backend: when the duration is known the
element's time is set to the clamped value and progress persists (the
`Bool` reports whether a persist happened); with unknown duration the
request is ignored. -/
def webSeek (a : WebAudio) (time : ℚ) : WebAudio × Bool :=
  match a.duration with
  | some d => ({ a with currentTime := max 0 (min time d) }, true)
  | none => (a, false)

/-- Run a sequence of `positionUpdate` events, concatenating outputs. -/
def runPosUpdates : PlayerState → List PosEvent → PlayerState × List Output
  | s, [] => (s, [])
  | s, e :: es =>
    let r1 := onPositionUpdate s e.position e.duration e.now
    let r2 := runPosUpdates r1.1 es
    (r2.1, r1.2 ++ r2.2)

/-- A native backend event of the two kinds relevant to the outro-flag
claims: a position update or a chapter transition. -/
inductive NEvent where
  | pos (position duration now : ℚ)
  | chap (index : ℤ) (mediaId : String)
deriving DecidableEq

/-- Run a sequence of position-update / chapter-changed events. -/
def runNEvents : PlayerState → List NEvent → PlayerState × List Output
  | s, [] => (s, [])
  | s, ev :: evs =>
    let r1 := match ev with
      | NEvent.pos p d n => onPositionUpdate s p d n
      | NEvent.chap i m => onChapterChanged s i m
    let r2 := runNEvents r1.1 evs
    (r2.1, r1.2 ++ r2.2)

/-- Run a sequence of stats heartbeats at the given wall-clock instants. -/
def runStats : PlayerState → List ℚ → PlayerState
  | s, [] => s
  | s, n :: ns => runStats (recordListeningTime s n) ns

/-- Every elapsed delta along a heartbeat sequence is at most 300
minutes (each delta measured against the evolving `lastStatUpdate`). -/
def statDeltasOK : PlayerState → List ℚ → Bool
  | _, [] => true
  | s, n :: ns =>
    decide ((n - s.lastStatUpdate) / 1000 / 60 ≤ 300) && statDeltasOK (recordListeningTime s n) ns

/-- Number of chapter-end callback invocations in an output trace. -/
def countEnd : List Output → ℕ
  | [] => 0
  | o :: os => (if o = Output.chapterEnd then 1 else 0) + countEnd os

/-- The outro-firing condition of a position-update event: duration known
and positive, remaining time in `(0, outroSeconds]`. -/
def outroFires (outroSeconds : ℚ) (e : PosEvent) : Bool :=
  decide (0 < e.duration) && decide (e.duration - e.position ≤ outroSeconds) &&
    decide (0 < e.duration - e.position)

/-- One engine operation or backend event, with the external inputs it
consumes (storage contents, backend snapshot, wall clock). -/
inductive Step where
  | load (bookId chapterId : String) (chapterIds : List String) (startPosition : ℚ)
      (db : List Chapter) (book : Option Book) (now : ℚ)
  | doPlay (backend : BackendState) (db : List Chapter) (book : Option Book)
  | doPause
  | doSeek (time : ℚ)
  | doSetSpeed (speed : ℚ)
  | doStop
  | evPlaying (isPlaying : Bool) (now : ℚ)
  | evPosition (position duration now : ℚ)
  | evChapter (index : ℤ) (mediaId : String)
  | evCompleted
  | evReset (db : List Chapter) (book : Option Book)

/-- Dispatch one step to the corresponding engine function. -/
def applyStep (s : PlayerState) : Step → PlayerState × List Output
  | Step.load b c cids sp db book now => loadChapterNative s b c cids sp db book now
  | Step.doPlay backend db book => (s, playNative s backend db book)
  | Step.doPause => pauseNative s
  | Step.doSeek t => seekNative s t
  | Step.doSetSpeed v => setSpeedNative s v
  | Step.doStop => stopNative s
  | Step.evPlaying p now => onPlayingChanged s p now
  | Step.evPosition p d now => onPositionUpdate s p d now
  | Step.evChapter i m => onChapterChanged s i m
  | Step.evCompleted => onCompleted s
  | Step.evReset db book => onServiceReset s db book

/-- Side conditions under which a step keeps the chapter-index invariant:
the spec's stated precondition on `loadChapter` (membership in the
argument list) strengthened by membership in the path-filtered playlist
when that playlist is nonempty, and consistency of chapter-changed
events with the engine's current list. All other steps are
unconditional. -/
def stepOK (s : PlayerState) : Step → Prop
  | Step.load _ c cids _ db _ _ =>
      c ∈ cids ∧ (availChapters db = [] ∨ c ∈ availIds db)
  | Step.evChapter i m => m ∈ s.chapterIds ∧ i = jsIndexOf s.chapterIds m
  | _ => True

/-- The inductive invariant tying the identity fields together: whenever
a book is loaded, the chapter id is present in the engine's list, the
index is its first-occurrence position, and `totalChapters` is the list
length. -/
def engineInv (s : PlayerState) : Prop :=
  s.bookId.isSome = true →
    ∃ cid, s.chapterId = some cid ∧ cid ∈ s.chapterIds ∧
      s.chapterIndex = jsIndexOf s.chapterIds cid ∧
      s.totalChapters = s.chapterIds.length

/-- The invariant exactly as the specification states it: index equals
the position of the chapter id in the list, and lies in
`[0, totalChapters)`. -/
def specChapterInv (s : PlayerState) : Prop :=
  s.bookId.isSome = true →
    ∃ cid, s.chapterId = some cid ∧
      s.chapterIndex = jsIndexOf s.chapterIds cid ∧
      0 ≤ s.chapterIndex ∧ s.chapterIndex < (s.totalChapters : ℤ)

/-! Concrete storage contents and engine states used by the witnesses and
counterexamples. -/

/-- Two chapters, both with local audio paths. -/
def exDb : List Chapter :=
  [{ id := "c1", title := "t1", audioPath := some "p1", order := 0 },
   { id := "c2", title := "t2", audioPath := some "p2", order := 1 }]

/-- A single chapter without a local audio path. -/
def exDbNoPaths : List Chapter :=
  [{ id := "c", title := "t", audioPath := none, order := 0 }]

/-- Two chapters of which only the first has a local audio path. -/
def exDbMixed : List Chapter :=
  [{ id := "c1", title := "t1", audioPath := some "p1", order := 0 },
   { id := "c2", title := "t2", audioPath := none, order := 1 }]

/-- An engine state with a loaded book mid-playback (position 42 of a
100-second chapter). -/
def exLoaded : PlayerState :=
  { initState with
    bookId := some "b", chapterId := some "c1", chapterIds := ["c1", "c2"],
    chapterIndex := 0, totalChapters := 2, nativePosition := 42, nativeDuration := 100,
    nativePlaying := true }

/-- The idle engine state with skip enabled (`introSeconds = 30`,
`outroSeconds = 15`). -/
def exSkipOn : PlayerState :=
  { initState with skipSettings := { enabled := true, introSeconds := 30, outroSeconds := 15 } }

/-- State `exLoaded` with skip enabled, as left by a fresh chapter load (outro
flag clear). -/
def exLoadedSkip : PlayerState :=
  { exLoaded with skipSettings := { enabled := true, introSeconds := 30, outroSeconds := 15 } }

/-- The position-update sequence of the spec's outro test: `duration=100`,
positions 80, 83, 86, 90, 95, 99 (heartbeat clock pinned at 0). -/
def exC5Events : List PosEvent :=
  [⟨80, 100, 0⟩, ⟨83, 100, 0⟩, ⟨86, 100, 0⟩, ⟨90, 100, 0⟩, ⟨95, 100, 0⟩, ⟨99, 100, 0⟩]

/-- The engine state produced by the C9 counterexample load: the
requested chapter is in the caller's list but lacks a local path, while
another chapter has one. -/
def exC9Bad : PlayerState :=
  (loadChapterNative initState "b" "c2" ["c1", "c2"] 0 exDbMixed none 0).1

/-- State `exLoadedSkip` after the outro check has fired for the current
chapter load. -/
def exTriggered : PlayerState :=
  { exLoadedSkip with skipOutroTriggered := true }

/-- A native event sequence containing an auto-advance chapter
transition followed by further position updates, one of them inside the
outro window. -/
def exC10Events : List NEvent :=
  [NEvent.chap 1 "c2", NEvent.pos 5 100 0, NEvent.pos 90 100 0]

/-! Helper lemmas. -/

theorem recordListeningTime_fields (s : PlayerState) (now : ℚ) :
    (recordListeningTime s now).bookId = s.bookId ∧
    (recordListeningTime s now).chapterId = s.chapterId ∧
    (recordListeningTime s now).chapterIds = s.chapterIds ∧
    (recordListeningTime s now).chapterIndex = s.chapterIndex ∧
    (recordListeningTime s now).totalChapters = s.totalChapters ∧
    (recordListeningTime s now).skipSettings = s.skipSettings ∧
    (recordListeningTime s now).skipOutroTriggered = s.skipOutroTriggered := by
  unfold recordListeningTime
  split
  · split
    · exact ⟨rfl, rfl, rfl, rfl, rfl, rfl, rfl⟩
    · exact ⟨rfl, rfl, rfl, rfl, rfl, rfl, rfl⟩
  · exact ⟨rfl, rfl, rfl, rfl, rfl, rfl, rfl⟩

theorem checkOutroSkip_of_triggered (s : PlayerState) (h : s.skipOutroTriggered = true) :
    checkOutroSkip s = (s, []) := by
  unfold checkOutroSkip
  by_cases h1 : s.skipSettings.enabled = false ∨ s.skipSettings.outroSeconds ≤ 0
  · rw [if_pos h1]
  · rw [if_neg h1, if_pos h]

theorem checkOutroSkip_fire (s : PlayerState) (hen : s.skipSettings.enabled = true)
    (hout : 0 < s.skipSettings.outroSeconds) (hflag : s.skipOutroTriggered = false)
    (hd : 0 < s.nativeDuration)
    (hr1 : s.nativeDuration - s.nativePosition ≤ s.skipSettings.outroSeconds)
    (hr2 : 0 < s.nativeDuration - s.nativePosition) :
    checkOutroSkip s = ({ s with skipOutroTriggered := true }, [Output.chapterEnd]) := by
  have g1 : ¬(s.skipSettings.enabled = false ∨ s.skipSettings.outroSeconds ≤ 0) := by
    rintro (he | ho)
    · rw [hen] at he; cases he
    · exact absurd hout (not_lt.mpr ho)
  have g2 : ¬(s.skipOutroTriggered = true) := by rw [hflag]; simp
  have g3 : ¬(s.nativeDuration ≤ 0) := not_le.mpr hd
  unfold checkOutroSkip
  rw [if_neg g1, if_neg g2, if_neg g3, if_pos ⟨hr1, hr2⟩]

theorem checkOutroSkip_of_nofire (s : PlayerState)
    (hnf : ¬(0 < s.nativeDuration ∧
      s.nativeDuration - s.nativePosition ≤ s.skipSettings.outroSeconds ∧
      0 < s.nativeDuration - s.nativePosition)) :
    checkOutroSkip s = (s, []) := by
  unfold checkOutroSkip
  by_cases h1 : s.skipSettings.enabled = false ∨ s.skipSettings.outroSeconds ≤ 0
  · rw [if_pos h1]
  rw [if_neg h1]
  by_cases h2 : s.skipOutroTriggered = true
  · rw [if_pos h2]
  rw [if_neg h2]
  by_cases h3 : s.nativeDuration ≤ 0
  · rw [if_pos h3]
  rw [if_neg h3]
  rw [if_neg]
  intro hc
  exact hnf ⟨lt_of_not_le h3, hc.1, hc.2⟩

theorem runPosUpdates_triggered (s : PlayerState) (evs : List PosEvent)
    (h : s.skipOutroTriggered = true) :
    (runPosUpdates s evs).2 = [] ∧ (runPosUpdates s evs).1.skipOutroTriggered = true := by
  induction evs generalizing s with
  | nil => exact ⟨rfl, h⟩
  | cons e es ih =>
    have h1 := checkOutroSkip_of_triggered { s with nativePosition := e.position, nativeDuration := e.duration } h
    have hrec : (recordListeningTime { s with nativePosition := e.position, nativeDuration := e.duration } e.now).skipOutroTriggered = true :=
      ((recordListeningTime_fields { s with nativePosition := e.position, nativeDuration := e.duration } e.now).2.2.2.2.2.2).trans h
    have hr := ih _ hrec
    refine ⟨?_, ?_⟩
    · simp [runPosUpdates, onPositionUpdate, h1, hr.1]
    · simp [runPosUpdates, onPositionUpdate, h1, hr.2]

theorem runPosUpdates_count (s : PlayerState) (evs : List PosEvent)
    (hen : s.skipSettings.enabled = true) (hout : 0 < s.skipSettings.outroSeconds)
    (hflag : s.skipOutroTriggered = false) :
    countEnd (runPosUpdates s evs).2 =
      if evs.any (outroFires s.skipSettings.outroSeconds) then 1 else 0 := by
  induction evs generalizing s with
  | nil => simp [runPosUpdates, countEnd]
  | cons e es ih =>
    by_cases hf : outroFires s.skipSettings.outroSeconds e = true
    · have hf' : 0 < e.duration ∧ e.duration - e.position ≤ s.skipSettings.outroSeconds ∧
          0 < e.duration - e.position := by
        have h1 := hf
        unfold outroFires at h1
        rw [Bool.and_eq_true, Bool.and_eq_true] at h1
        exact ⟨of_decide_eq_true h1.1.1, of_decide_eq_true h1.1.2, of_decide_eq_true h1.2⟩
      have hck := checkOutroSkip_fire { s with nativePosition := e.position, nativeDuration := e.duration } hen hout hflag hf'.1 hf'.2.1 hf'.2.2
      have hrec : (recordListeningTime { s with nativePosition := e.position, nativeDuration := e.duration, skipOutroTriggered := true } e.now).skipOutroTriggered = true :=
        (recordListeningTime_fields { s with nativePosition := e.position, nativeDuration := e.duration, skipOutroTriggered := true } e.now).2.2.2.2.2.2
      have htr := runPosUpdates_triggered (recordListeningTime { s with nativePosition := e.position, nativeDuration := e.duration, skipOutroTriggered := true } e.now) es hrec
      simp [runPosUpdates, onPositionUpdate, hck, countEnd, htr.1, hf]
    · have hf2 : outroFires s.skipSettings.outroSeconds e = false := by
        revert hf; cases outroFires s.skipSettings.outroSeconds e <;> simp
      have hnf : ¬(0 < e.duration ∧ e.duration - e.position ≤ s.skipSettings.outroSeconds ∧
          0 < e.duration - e.position) := by
        intro hc
        refine hf ?_
        unfold outroFires
        rw [decide_eq_true hc.1, decide_eq_true hc.2.1, decide_eq_true hc.2.2]
        rfl
      have hck := checkOutroSkip_of_nofire { s with nativePosition := e.position, nativeDuration := e.duration } hnf
      have hfields := recordListeningTime_fields { s with nativePosition := e.position, nativeDuration := e.duration } e.now
      have hsetts : (recordListeningTime { s with nativePosition := e.position, nativeDuration := e.duration } e.now).skipSettings = s.skipSettings := hfields.2.2.2.2.2.1
      have hen2 : (recordListeningTime { s with nativePosition := e.position, nativeDuration := e.duration } e.now).skipSettings.enabled = true := by
        rw [hsetts]; exact hen
      have hout2 : 0 < (recordListeningTime { s with nativePosition := e.position, nativeDuration := e.duration } e.now).skipSettings.outroSeconds := by
        rw [hsetts]; exact hout
      have hflag2 : (recordListeningTime { s with nativePosition := e.position, nativeDuration := e.duration } e.now).skipOutroTriggered = false :=
        hfields.2.2.2.2.2.2.trans hflag
      have hih := ih _ hen2 hout2 hflag2
      rw [hsetts] at hih
      have hstep : runPosUpdates s (e :: es) =
          ((runPosUpdates (recordListeningTime { s with nativePosition := e.position, nativeDuration := e.duration } e.now) es).1,
           [] ++ (runPosUpdates (recordListeningTime { s with nativePosition := e.position, nativeDuration := e.duration } e.now) es).2) := by
        simp [runPosUpdates, onPositionUpdate, hck]
      rw [hstep]
      simp only [List.nil_append]
      rw [hih]
      simp [List.any_cons, hf2]

theorem persistOutputs_no_end (s : PlayerState) : Output.chapterEnd ∉ persistOutputs s := by
  unfold persistOutputs
  split
  · simp
  · simp

theorem onChapterChanged_no_end (s : PlayerState) (i : ℤ) (m : String) :
    Output.chapterEnd ∉ (onChapterChanged s i m).2 ∧
    (onChapterChanged s i m).1.skipOutroTriggered = s.skipOutroTriggered := by
  unfold onChapterChanged
  split
  · exact ⟨persistOutputs_no_end _, rfl⟩
  · exact ⟨by simp, rfl⟩

theorem runNEvents_sticky (s : PlayerState) (evs : List NEvent)
    (h : s.skipOutroTriggered = true) :
    Output.chapterEnd ∉ (runNEvents s evs).2 ∧
    (runNEvents s evs).1.skipOutroTriggered = true := by
  induction evs generalizing s with
  | nil => exact ⟨by simp [runNEvents], h⟩
  | cons ev evs ih =>
    cases ev with
    | pos p d n =>
      have h1 := checkOutroSkip_of_triggered { s with nativePosition := p, nativeDuration := d } h
      have hrec : (recordListeningTime { s with nativePosition := p, nativeDuration := d } n).skipOutroTriggered = true :=
        ((recordListeningTime_fields { s with nativePosition := p, nativeDuration := d } n).2.2.2.2.2.2).trans h
      have hr := ih _ hrec
      have hshape : runNEvents s (NEvent.pos p d n :: evs) =
          ((runNEvents (recordListeningTime { s with nativePosition := p, nativeDuration := d } n) evs).1,
           [] ++ (runNEvents (recordListeningTime { s with nativePosition := p, nativeDuration := d } n) evs).2) := by
        simp [runNEvents, onPositionUpdate, h1]
      rw [hshape]
      simp only [List.nil_append]
      exact ⟨hr.1, hr.2⟩
    | chap i m =>
      have hfl := ((onChapterChanged_no_end s i m).2).trans h
      have hne := (onChapterChanged_no_end s i m).1
      have hr := ih _ hfl
      have hshape : runNEvents s (NEvent.chap i m :: evs) =
          ((runNEvents (onChapterChanged s i m).1 evs).1,
           (onChapterChanged s i m).2 ++ (runNEvents (onChapterChanged s i m).1 evs).2) := by
        simp [runNEvents]
      rw [hshape]
      refine ⟨?_, hr.2⟩
      intro hmem
      rcases List.mem_append.mp hmem with hx | hx
      · exact hne hx
      · exact hr.1 hx

/-! Claim theorems. -/

/-- C5: after a single chapter load with skip enabled and
`outroSeconds > 0` (outro flag clear), the outro check invokes the
chapter-end callback exactly at the first position-update event whose
duration is known positive and whose remaining time lies in
`(0, outroSeconds]`, and never again for the same chapter load: over
every prefix of the event sequence the number of callback invocations is
1 when the prefix contains such an event and 0 otherwise. -/
theorem C5_outro_fires_once (s : PlayerState) (evs : List PosEvent) (k : ℕ)
    (hen : s.skipSettings.enabled = true) (hout : 0 < s.skipSettings.outroSeconds)
    (hflag : s.skipOutroTriggered = false) :
    countEnd (runPosUpdates s (List.take k evs)).2 =
      if (List.take k evs).any (outroFires s.skipSettings.outroSeconds) then 1 else 0 :=
  runPosUpdates_count s (List.take k evs) hen hout hflag

/-- C5 witness: with `outroSeconds = 15`, `duration = 100` and position
updates at 80, 83, 86, 90, 95, 99, the callback has fired 0 times after
the first two events, once after three (the `t = 86` event), and still
only once after all six. -/
theorem C5_outro_fires_once_witness :
    countEnd (runPosUpdates exLoadedSkip (List.take 2 exC5Events)).2 = 0 ∧
    countEnd (runPosUpdates exLoadedSkip (List.take 3 exC5Events)).2 = 1 ∧
    countEnd (runPosUpdates exLoadedSkip (List.take 6 exC5Events)).2 = 1 := by
  refine ⟨?_, ?_, ?_⟩
  · rw [C5_outro_fires_once exLoadedSkip exC5Events 2 rfl (by norm_num [exLoadedSkip]) rfl]
    norm_num [exC5Events, exLoadedSkip, outroFires]
  · rw [C5_outro_fires_once exLoadedSkip exC5Events 3 rfl (by norm_num [exLoadedSkip]) rfl]
    norm_num [exC5Events, exLoadedSkip, outroFires]
  · rw [C5_outro_fires_once exLoadedSkip exC5Events 6 rfl (by norm_num [exLoadedSkip]) rfl]
    norm_num [exC5Events, exLoadedSkip, outroFires]

/-- C10: the outro flag is cleared only by `loadChapter`: once it has
fired, no sequence of native position-update and chapter-changed events
invokes the chapter-end callback through the outro check (the flag
survives every such event), while `loadChapter` resets the flag. -/
theorem C10_outro_flag_sticky (s : PlayerState) (evs : List NEvent)
    (b c : String) (cids : List String) (sp : ℚ) (db : List Chapter)
    (book : Option Book) (now : ℚ) (h : s.skipOutroTriggered = true) :
    Output.chapterEnd ∉ (runNEvents s evs).2 ∧
    (runNEvents s evs).1.skipOutroTriggered = true ∧
    (loadChapterNative s b c cids sp db book now).1.skipOutroTriggered = false := by
  refine ⟨(runNEvents_sticky s evs h).1, (runNEvents_sticky s evs h).2, ?_⟩
  by_cases hp : availPaths db = []
  · simp [loadChapterNative, hp]
  · simp [loadChapterNative, hp]

/-- C10 witness: after the outro has fired, a chapter transition to
`c2` followed by position updates (one inside the outro window) never
invokes the callback, and a subsequent `loadChapter` clears the flag. -/
theorem truthyStr_of_ne (o : Option String) (x : String) (ho : o = some x) (hx : x ≠ "") :
    truthyStr o = true := by
  rw [ho]
  simp [truthyStr, hx]

/-- C1 counterexample: with the engine mid-playback at position 42, the
session-reset handler resubmits the playlist at start position 0, not at
the last known position 42 as the claim states. -/
theorem C1_counterexample :
    exLoaded.nativePosition = 42 ∧
    (onServiceReset exLoaded exDb none).2 =
      [Output.loadPlaylist ["p1", "p2"] ["t1", "t2"] ["c1", "c2"] "静听" 0 0 1 "",
        Output.pause] ∧
    (42 : ℚ) ≠ 0 := by
  refine ⟨rfl, by decide, by norm_num⟩

/-- C1 amended: on a session-reset with a book and chapter loaded the
engine marks itself not-playing, zeroes reported position and duration,
and silently resubmits the playlist at the last known chapter with start
position 0 — the just-zeroed reported position, not the position reported
before the reset — without auto-playing (the load command is followed by
a pause and no play command). -/
theorem C1_service_reset_reload (s : PlayerState) (db : List Chapter) (book : Option Book)
    (b c : String) (hb : s.bookId = some b) (hb2 : b ≠ "") (hc : s.chapterId = some c)
    (hc2 : c ≠ "") (hne : s.chapterIds ≠ []) :
    (onServiceReset s db book).1 =
      { s with nativePlaying := false, nativePosition := 0, nativeDuration := 0 } ∧
    (availPaths db = [] → (onServiceReset s db book).2 = []) ∧
    (availPaths db ≠ [] →
      (onServiceReset s db book).2 =
        [Output.loadPlaylist (availPaths db) (availTitles db) (availIds db) (artistOf book)
          (nativeStartIdx db c) 0 s.speed (coverOf book), Output.pause]) := by
  have hlen : 0 < s.chapterIds.length := List.length_pos.mpr hne
  have htb : truthyStr (some b) = true := truthyStr_of_ne (some b) b rfl hb2
  have htc : truthyStr (some c) = true := truthyStr_of_ne (some c) c rfl hc2
  refine ⟨?_, ?_, ?_⟩
  · simp [onServiceReset, hb, hc, htb, htc, hlen]
  · intro hp
    simp [onServiceReset, reloadNativePlaylist, hb, hc, htb, htc, hlen, hp]
  · intro hp
    simp [onServiceReset, reloadNativePlaylist, hb, hc, htb, htc, hlen, hp]

/-- C1 amended witness: the reload after a reset of `exLoaded` targets
chapter `c1` (index 0) at position 0 and pauses instead of playing. -/
theorem C1_service_reset_reload_witness :
    (onServiceReset exLoaded exDb none).1 =
      { exLoaded with nativePlaying := false, nativePosition := 0, nativeDuration := 0 } ∧
    (onServiceReset exLoaded exDb none).2 =
      [Output.loadPlaylist (availPaths exDb) (availTitles exDb) (availIds exDb) (artistOf none)
        (nativeStartIdx exDb "c1") 0 exLoaded.speed (coverOf none), Output.pause] :=
  ⟨(C1_service_reset_reload exLoaded exDb none "b" "c1" rfl (by decide) rfl (by decide)
      (by decide)).1,
   (C1_service_reset_reload exLoaded exDb none "b" "c1" rfl (by decide) rfl (by decide)
      (by decide)).2.2 (by decide)⟩

/-- C2 counterexample: loading a chapter of a book with no resolvable
paths issues no backend command, but the engine state is not unchanged —
the book id flips from `none` to the requested book. -/
theorem C2_counterexample :
    availPaths exDbNoPaths = [] ∧
    (loadChapterNative initState "b" "c" ["c"] 0 exDbNoPaths none 0).2 = [] ∧
    initState.bookId = none ∧
    (loadChapterNative initState "b" "c" ["c"] 0 exDbNoPaths none 0).1.bookId = some "b" := by
  refine ⟨by decide, by decide, rfl, by decide⟩

/-- C2 amended: when no chapter of the book has a resolvable local path
the native load is abandoned before any backend command — nothing is
sent to the backend and the reported position, duration, playing flag,
speed and stats are untouched — but the identity fields (bookId,
chapterId, chapter-id list, chapterIndex, totalChapters) have already
been set to the requested values and the outro flag has been cleared. -/
theorem C2_no_paths_abandons (s : PlayerState) (b c : String) (cids : List String)
    (sp : ℚ) (db : List Chapter) (book : Option Book) (now : ℚ)
    (h : availPaths db = []) :
    loadChapterNative s b c cids sp db book now =
      ({ s with
          bookId := some b, chapterId := some c, chapterIds := cids,
          chapterIndex := jsIndexOf cids c, totalChapters := cids.length,
          skipOutroTriggered := false }, []) := by
  simp [loadChapterNative, h]

/-- C2 amended witness: the concrete no-path load issues no command and
produces exactly the identity-updated state. -/
theorem C2_no_paths_abandons_witness :
    loadChapterNative initState "b" "c" ["c"] 0 exDbNoPaths none 0 =
      ({ initState with
          bookId := some "b", chapterId := some "c", chapterIds := ["c"],
          chapterIndex := jsIndexOf ["c"] "c", totalChapters := ["c"].length,
          skipOutroTriggered := false }, []) :=
  C2_no_paths_abandons initState "b" "c" ["c"] 0 exDbNoPaths none 0 (by decide)

/-- C3 counterexample: a native seek to -5 with known duration 100
commands the backend with -5 and reports -5, not the clamped value
`max 0 (min (-5) 100) = 0`. -/
theorem C3_counterexample :
    exLoaded.nativeDuration = 100 ∧
    (seekNative exLoaded (-5)).2 = [Output.seekTo (-5), Output.persist "b" "c1" (-5) 1] ∧
    (seekNative exLoaded (-5)).1.nativePosition = -5 ∧
    ¬((-5 : ℚ) = max 0 (min (-5) 100)) := by
  refine ⟨rfl, by decide, rfl, by norm_num⟩

/-- C3 amended: only the web backend clamps — with a known duration the
web seek sets the element time to `max 0 (min t duration)`, while the
native seek always commands and reports the raw requested time,
unclamped; in neither case is a request rejected on the native backend. -/
theorem C3_seek_clamp (a : WebAudio) (t d : ℚ) (s : PlayerState) (u : ℚ)
    (hd : a.duration = some d) :
    (webSeek a t).1.currentTime = max 0 (min t d) ∧
    seekNative s u =
      ({ s with nativePosition := u },
        Output.seekTo u :: persistOutputs { s with nativePosition := u }) := by
  constructor
  · simp [webSeek, hd]
  · rfl

/-- C3 amended witness: a web seek to 150 with duration 100 clamps to
100; a native seek to -5 passes -5 through. -/
theorem C3_seek_clamp_witness :
    (webSeek ⟨10, some 100⟩ 150).1.currentTime = max 0 (min 150 100) ∧
    seekNative exLoaded (-5) =
      ({ exLoaded with nativePosition := -5 },
        Output.seekTo (-5) :: persistOutputs { exLoaded with nativePosition := -5 }) :=
  C3_seek_clamp ⟨10, some 100⟩ 150 100 exLoaded (-5) rfl

/-- C4 counterexample: with the backend degraded (not playing, zero
duration), `play()` reloads with auto-play — the trace is a single
load-playlist command with no pause and no play command, not a
non-auto-playing reload followed by a play command as the claim
states. -/
theorem C4_counterexample :
    playNative exLoaded ⟨false, 0, 0, 0⟩ exDb none =
      [Output.loadPlaylist ["p1", "p2"] ["t1", "t2"] ["c1", "c2"] "静听" 0 42 1 ""] ∧
    Output.play ∉ playNative exLoaded ⟨false, 0, 0, 0⟩ exDb none ∧
    Output.pause ∉ playNative exLoaded ⟨false, 0, 0, 0⟩ exDb none ∧
    playNative exLoaded ⟨false, 0, 0, 0⟩ exDb none ≠
      reloadNativePlaylist exLoaded exDb none false ++ [Output.play] := by
  refine ⟨by decide, by decide, by decide, by decide⟩

/-- C4 amended: when the backend liveness query reports not-playing with
zero duration while a book and chapter are loaded, `play()` performs
exactly one playlist reload at the last known chapter and position with
auto-play — the reload itself starts playback and no separate play or
pause command is issued; otherwise `play()` issues a direct play command
with no reload. -/
theorem C4_play_reload (s : PlayerState) (backend : BackendState) (db : List Chapter)
    (book : Option Book) (b c : String) (hb : s.bookId = some b) (hb2 : b ≠ "")
    (hc : s.chapterId = some c) (hc2 : c ≠ "") (hpaths : availPaths db ≠ []) :
    (backend.isPlaying = false ∧ backend.duration = 0 →
      playNative s backend db book =
        [Output.loadPlaylist (availPaths db) (availTitles db) (availIds db) (artistOf book)
          (nativeStartIdx db c) s.nativePosition s.speed (coverOf book)]) ∧
    (¬(backend.isPlaying = false ∧ backend.duration = 0) →
      playNative s backend db book = [Output.play]) := by
  have htb : truthyStr (some b) = true := truthyStr_of_ne (some b) b rfl hb2
  have htc : truthyStr (some c) = true := truthyStr_of_ne (some c) c rfl hc2
  constructor
  · intro hdeg
    simp [playNative, hdeg.1, hdeg.2, reloadNativePlaylist, hb, hc, htb, htc, hpaths]
  · intro hnot
    have hng : ¬(backend.isPlaying = false ∧ backend.duration = 0 ∧
        truthyStr s.bookId = true ∧ truthyStr s.chapterId = true) := by
      intro hcond
      exact hnot ⟨hcond.1, hcond.2.1⟩
    simp [playNative, hng]

/-- C4 amended witness: the degraded-backend call reloads (auto-playing)
at chapter `c1`, position 42; a live backend gets a direct play. -/
theorem C4_play_reload_witness :
    playNative exLoaded ⟨false, 0, 0, 0⟩ exDb none =
      [Output.loadPlaylist (availPaths exDb) (availTitles exDb) (availIds exDb) (artistOf none)
        (nativeStartIdx exDb "c1") exLoaded.nativePosition exLoaded.speed (coverOf none)] ∧
    playNative exLoaded ⟨true, 5, 100, 0⟩ exDb none = [Output.play] :=
  ⟨(C4_play_reload exLoaded ⟨false, 0, 0, 0⟩ exDb none "b" "c1" rfl (by decide) rfl
      (by decide) (by decide)).1 ⟨rfl, rfl⟩,
   (C4_play_reload exLoaded ⟨true, 5, 100, 0⟩ exDb none "b" "c1" rfl (by decide) rfl
      (by decide) (by decide)).2 (by simp)⟩

theorem recordListeningTime_todayMinutes_mono (s : PlayerState) (now : ℚ) :
    s.todayMinutes ≤ (recordListeningTime s now).todayMinutes := by
  unfold recordListeningTime
  split
  · split
    · exact le_refl _
    · rename_i h1 h2
      show s.todayMinutes ≤ (jround ((s.todayMinutes + (now - s.lastStatUpdate) / 1000 / 60) * 10) : ℚ) / 10
      have hf := Int.sub_one_lt_floor ((s.todayMinutes + (now - s.lastStatUpdate) / 1000 / 60) * 10 + 1 / 2)
      unfold jround
      rw [le_div_iff₀ (by norm_num : (0:ℚ) < 10)]
      linarith [hf, h1]
  · exact le_refl _

theorem runStats_todayMinutes_mono (s : PlayerState) (nows : List ℚ) :
    s.todayMinutes ≤ (runStats s nows).todayMinutes := by
  induction nows generalizing s with
  | nil => exact le_refl _
  | cons n ns ih => exact le_trans (recordListeningTime_todayMinutes_mono s n) (ih (recordListeningTime s n))

/-- C6: the chapter-changed reconciler is idempotent in the chapter id —
an event matching the current chapter id changes nothing and emits
nothing; a differing id updates the index and id, resets the reported
position to 0, and persists exactly once; two consecutive events with
the same id act exactly like one. -/
theorem C6_chapter_changed_idempotent (s : PlayerState) (index : ℤ) (mediaId b : String)
    (hb : s.bookId = some b) (hb2 : b ≠ "") (hm : mediaId ≠ "") :
    (s.chapterId = some mediaId → onChapterChanged s index mediaId = (s, [])) ∧
    (s.chapterId ≠ some mediaId →
      onChapterChanged s index mediaId =
        ({ s with chapterIndex := index, chapterId := some mediaId, nativePosition := 0 },
          [Output.persist b mediaId 0 s.speed])) ∧
    runNEvents s [NEvent.chap index mediaId, NEvent.chap index mediaId] =
      runNEvents s [NEvent.chap index mediaId] := by
  have hsame : s.chapterId = some mediaId → onChapterChanged s index mediaId = (s, []) := by
    intro h
    unfold onChapterChanged
    rw [if_neg (not_not_intro h)]
  have hdiff : s.chapterId ≠ some mediaId →
      onChapterChanged s index mediaId =
        ({ s with chapterIndex := index, chapterId := some mediaId, nativePosition := 0 },
          [Output.persist b mediaId 0 s.speed]) := by
    intro h
    unfold onChapterChanged
    rw [if_pos h]
    simp [persistOutputs, truthyStr, hb, hb2, hm]
  refine ⟨hsame, hdiff, ?_⟩
  by_cases h : s.chapterId = some mediaId
  · simp [runNEvents, hsame h]
  · have e2 : onChapterChanged { s with chapterIndex := index, chapterId := some mediaId, nativePosition := 0 } index mediaId =
        ({ s with chapterIndex := index, chapterId := some mediaId, nativePosition := 0 }, []) := by
      unfold onChapterChanged
      rw [if_neg (not_not_intro rfl)]
    simp [runNEvents, hdiff h, e2]

/-- C6 witness: with chapter `c1` current, a transition event to `c2`
updates index and id, zeroes the position and persists once; repeating
it is a no-op, and two consecutive `c2` events equal one. -/
theorem C6_chapter_changed_idempotent_witness :
    onChapterChanged exLoaded 1 "c2" =
      ({ exLoaded with chapterIndex := 1, chapterId := some "c2", nativePosition := 0 },
        [Output.persist "b" "c2" 0 exLoaded.speed]) ∧
    runNEvents exLoaded [NEvent.chap 1 "c2", NEvent.chap 1 "c2"] =
      runNEvents exLoaded [NEvent.chap 1 "c2"] := by
  have h := C6_chapter_changed_idempotent exLoaded 1 "c2" "b" rfl (by decide) (by decide)
  exact ⟨h.2.1 (by decide), h.2.2⟩

/-- C7: over any heartbeat sequence whose elapsed deltas stay at or below
300 minutes the day's accumulated minutes never decrease, and a single
delta above 300 minutes leaves the accumulated total unchanged while the
last-accounted timestamp still advances to `now`. -/
theorem C7_stats_heartbeat (s : PlayerState) (nows : List ℚ) (now : ℚ)
    (hseq : statDeltasOK s nows = true)
    (hbig : 300 < (now - s.lastStatUpdate) / 1000 / 60) :
    s.todayMinutes ≤ (runStats s nows).todayMinutes ∧
    recordListeningTime s now = { s with lastStatUpdate := now } := by
  refine ⟨runStats_todayMinutes_mono s nows, ?_⟩
  unfold recordListeningTime
  rw [if_pos (by linarith : (1:ℚ) / 10 < (now - s.lastStatUpdate) / 1000 / 60), if_pos hbig]

/-- C7 witness: a 10-minute heartbeat never decreases the accumulated
minutes, and a 1000-minute gap advances the timestamp without touching
the total. -/
theorem C7_stats_heartbeat_witness :
    initState.todayMinutes ≤ (runStats initState [600000]).todayMinutes ∧
    recordListeningTime initState 60000000 = { initState with lastStatUpdate := 60000000 } :=
  C7_stats_heartbeat initState [600000] 60000000
    (by norm_num [statDeltasOK, initState])
    (by norm_num [initState])

/-- C8: `loadChapter` applies intro-skip only on a fresh start — with
skip enabled and `introSeconds > 0`, a caller start position of exactly 0
makes the backend receive `introSeconds` as the start position, while any
nonzero caller start position reaches the backend unchanged. -/
theorem C8_intro_skip (s : PlayerState) (b c : String) (cids : List String)
    (db : List Chapter) (book : Option Book) (now p : ℚ)
    (hen : s.skipSettings.enabled = true) (hintro : 0 < s.skipSettings.introSeconds)
    (hpaths : availPaths db ≠ []) (hp : p ≠ 0) :
    (loadChapterNative s b c cids 0 db book now).2 =
      [Output.loadPlaylist (availPaths db) (availTitles db) (availIds db) (artistOf book)
        (nativeStartIdx db c) s.skipSettings.introSeconds s.speed (coverOf book)] ∧
    (loadChapterNative s b c cids p db book now).2 =
      [Output.loadPlaylist (availPaths db) (availTitles db) (availIds db) (artistOf book)
        (nativeStartIdx db c) p s.speed (coverOf book)] := by
  constructor
  · simp [loadChapterNative, hpaths, hen, hintro]
  · simp [loadChapterNative, hpaths, hp]

/-- C8 witness: with `introSeconds = 30` enabled, a load at start
position 0 submits the playlist at position 30, and a load at start
position 42 submits it at exactly 42. -/
theorem C8_intro_skip_witness :
    (loadChapterNative exSkipOn "b" "c1" ["c1", "c2"] 0 exDb none 0).2 =
      [Output.loadPlaylist (availPaths exDb) (availTitles exDb) (availIds exDb) (artistOf none)
        (nativeStartIdx exDb "c1") exSkipOn.skipSettings.introSeconds exSkipOn.speed (coverOf none)] ∧
    (loadChapterNative exSkipOn "b" "c1" ["c1", "c2"] 42 exDb none 0).2 =
      [Output.loadPlaylist (availPaths exDb) (availTitles exDb) (availIds exDb) (artistOf none)
        (nativeStartIdx exDb "c1") 42 exSkipOn.speed (coverOf none)] :=
  C8_intro_skip exSkipOn "b" "c1" ["c1", "c2"] exDb none 0 42 rfl
    (by norm_num [exSkipOn]) (by decide) (by norm_num)

theorem jsIndexOfAux_mem (x : String) (l : List String) (i : ℕ) (h : x ∈ l) :
    (i : ℤ) ≤ jsIndexOfAux x l i ∧ jsIndexOfAux x l i < (i : ℤ) + l.length := by
  induction l generalizing i with
  | nil => cases h
  | cons y ys ih =>
    unfold jsIndexOfAux
    by_cases hy : y = x
    · rw [if_pos hy]
      refine ⟨le_refl _, ?_⟩
      rw [List.length_cons]
      push_cast
      omega
    · rw [if_neg hy]
      have hmem : x ∈ ys := by
        rcases List.mem_cons.mp h with h1 | h1
        · exact absurd h1.symm hy
        · exact h1
      have hih := ih (i + 1) hmem
      constructor
      · have h1 := hih.1
        push_cast at h1 ⊢
        linarith
      · have h2 := hih.2
        rw [List.length_cons]
        push_cast at h2 ⊢
        linarith

theorem jsIndexOf_mem_bounds (l : List String) (x : String) (h : x ∈ l) :
    0 ≤ jsIndexOf l x ∧ jsIndexOf l x < l.length := by
  have hb := jsIndexOfAux_mem x l 0 h
  unfold jsIndexOf
  constructor
  · simpa using hb.1
  · simpa using hb.2

theorem nativeStartIdx_cast (db : List Chapter) (c : String) (h : c ∈ availIds db) :
    (nativeStartIdx db c : ℤ) = jsIndexOf (availIds db) c := by
  have hb := jsIndexOf_mem_bounds (availIds db) c h
  unfold nativeStartIdx
  rw [if_pos hb.1]
  exact Int.toNat_of_nonneg hb.1

theorem availPaths_nil_of_chapters (db : List Chapter) (h : availChapters db = []) :
    availPaths db = [] := by
  unfold availPaths
  rw [h]
  rfl

theorem checkOutroSkip_fields (s : PlayerState) :
    (checkOutroSkip s).1.bookId = s.bookId ∧
    (checkOutroSkip s).1.chapterId = s.chapterId ∧
    (checkOutroSkip s).1.chapterIds = s.chapterIds ∧
    (checkOutroSkip s).1.chapterIndex = s.chapterIndex ∧
    (checkOutroSkip s).1.totalChapters = s.totalChapters := by
  unfold checkOutroSkip
  split
  · exact ⟨rfl, rfl, rfl, rfl, rfl⟩
  split
  · exact ⟨rfl, rfl, rfl, rfl, rfl⟩
  split
  · exact ⟨rfl, rfl, rfl, rfl, rfl⟩
  split
  · exact ⟨rfl, rfl, rfl, rfl, rfl⟩
  · exact ⟨rfl, rfl, rfl, rfl, rfl⟩

theorem engineInv_of_fields (s t : PlayerState)
    (h1 : t.bookId = s.bookId) (h2 : t.chapterId = s.chapterId)
    (h3 : t.chapterIds = s.chapterIds) (h4 : t.chapterIndex = s.chapterIndex)
    (h5 : t.totalChapters = s.totalChapters) (hs : engineInv s) : engineInv t := by
  intro hb
  rw [h1] at hb
  obtain ⟨cid, hc, hmem, hidx, htot⟩ := hs hb
  refine ⟨cid, h2.trans hc, ?_, ?_, ?_⟩
  · rw [h3]; exact hmem
  · rw [h4, h3]; exact hidx
  · rw [h5, h3]; exact htot

theorem specChapterInv_of_engineInv (s : PlayerState) (hs : engineInv s) :
    specChapterInv s := by
  intro hb
  obtain ⟨cid, hc, hmem, hidx, htot⟩ := hs hb
  have hb2 := jsIndexOf_mem_bounds s.chapterIds cid hmem
  refine ⟨cid, hc, hidx, ?_, ?_⟩
  · rw [hidx]; exact hb2.1
  · rw [hidx, htot]; exact_mod_cast hb2.2

theorem loadChapterNative_state_empty (s : PlayerState) (b c : String) (cids : List String)
    (sp : ℚ) (db : List Chapter) (book : Option Book) (now : ℚ) (hp : availPaths db = []) :
    (loadChapterNative s b c cids sp db book now).1 =
      { s with
          bookId := some b, chapterId := some c, chapterIds := cids,
          chapterIndex := jsIndexOf cids c, totalChapters := cids.length,
          skipOutroTriggered := false } := by
  simp [loadChapterNative, hp]

theorem loadChapterNative_fields_nonempty (s : PlayerState) (b c : String) (cids : List String)
    (sp : ℚ) (db : List Chapter) (book : Option Book) (now : ℚ) (hp : availPaths db ≠ []) :
    (loadChapterNative s b c cids sp db book now).1.bookId = some b ∧
    (loadChapterNative s b c cids sp db book now).1.chapterId = some c ∧
    (loadChapterNative s b c cids sp db book now).1.chapterIds = availIds db ∧
    (loadChapterNative s b c cids sp db book now).1.chapterIndex = (nativeStartIdx db c : ℤ) ∧
    (loadChapterNative s b c cids sp db book now).1.totalChapters = (availIds db).length := by
  simp [loadChapterNative, hp]

/-- C9 (amended): one engine step preserves the chapter-index invariant —
whenever a book is loaded, `chapterIndex` equals the position of
`chapterId` in the engine's current ordered chapter-id list and lies in
`[0, totalChapters)` — under the spec's precondition that `loadChapter`'s
chapter id is a member of its argument list, strengthened by two
conditions the code requires: the requested chapter must be in the
path-filtered native playlist whenever that playlist is nonempty, and a
chapter-changed event must report a chapter of the engine's current list
together with that chapter's position in it. -/
theorem C9_chapter_index_invariant (s : PlayerState) (st : Step)
    (hs : engineInv s) (hok : stepOK s st) :
    engineInv (applyStep s st).1 ∧ specChapterInv (applyStep s st).1 := by
  have hinv : engineInv (applyStep s st).1 := by
    cases st with
    | load b c cids sp db book now =>
      obtain ⟨hmem, hch⟩ := hok
      show engineInv (loadChapterNative s b c cids sp db book now).1
      by_cases hp : availPaths db = []
      · rw [loadChapterNative_state_empty s b c cids sp db book now hp]
        intro _
        exact ⟨c, rfl, hmem, rfl, rfl⟩
      · have hc2 : c ∈ availIds db := by
          rcases hch with h0 | h0
          · exact absurd (availPaths_nil_of_chapters db h0) hp
          · exact h0
        have hf := loadChapterNative_fields_nonempty s b c cids sp db book now hp
        intro hb
        refine ⟨c, hf.2.1, ?_, ?_, ?_⟩
        · rw [hf.2.2.1]; exact hc2
        · rw [hf.2.2.2.1, hf.2.2.1]; exact nativeStartIdx_cast db c hc2
        · rw [hf.2.2.2.2, hf.2.2.1]
    | doPlay backend db book => exact hs
    | doPause => exact hs
    | doSeek t => exact engineInv_of_fields s _ rfl rfl rfl rfl rfl hs
    | doSetSpeed v => exact engineInv_of_fields s _ rfl rfl rfl rfl rfl hs
    | doStop =>
      intro hb
      simp [applyStep, stopNative] at hb
    | evPlaying p now =>
      cases p with
      | false =>
        have f := recordListeningTime_fields { s with nativePlaying := false } now
        exact engineInv_of_fields s _ f.1 f.2.1 f.2.2.1 f.2.2.2.1 f.2.2.2.2.1 hs
      | true => exact engineInv_of_fields s _ rfl rfl rfl rfl rfl hs
    | evPosition p d now =>
      have f1 := checkOutroSkip_fields { s with nativePosition := p, nativeDuration := d }
      have f2 := recordListeningTime_fields (checkOutroSkip { s with nativePosition := p, nativeDuration := d }).1 now
      exact engineInv_of_fields s _ (f2.1.trans f1.1) (f2.2.1.trans f1.2.1)
        (f2.2.2.1.trans f1.2.2.1) (f2.2.2.2.1.trans f1.2.2.2.1)
        (f2.2.2.2.2.1.trans f1.2.2.2.2) hs
    | evChapter i m =>
      obtain ⟨hmem, hidx⟩ := hok
      show engineInv (onChapterChanged s i m).1
      by_cases h : s.chapterId = some m
      · rw [show (onChapterChanged s i m).1 = s from by simp [onChapterChanged, h]]
        exact hs
      · rw [show (onChapterChanged s i m).1 =
            { s with chapterIndex := i, chapterId := some m, nativePosition := 0 } from by
          simp [onChapterChanged, h]]
        intro hb
        obtain ⟨cid, _, _, _, htot⟩ := hs hb
        exact ⟨m, rfl, hmem, hidx, htot⟩
    | evCompleted => exact engineInv_of_fields s _ rfl rfl rfl rfl rfl hs
    | evReset db book =>
      show engineInv (onServiceReset s db book).1
      have hres : (onServiceReset s db book).1 =
          { s with nativePlaying := false, nativePosition := 0, nativeDuration := 0 } := by
        simp only [onServiceReset]
        split <;> rfl
      rw [hres]
      exact engineInv_of_fields s _ rfl rfl rfl rfl rfl hs
  exact ⟨hinv, specChapterInv_of_engineInv _ hinv⟩

/-- C9 witness: loading chapter `c1` of a fully path-resolvable
two-chapter book from the idle state yields a state satisfying both the
inductive and the spec-stated chapter-index invariant. -/
theorem C9_chapter_index_invariant_witness :
    engineInv (applyStep initState (Step.load "b" "c1" ["c1", "c2"] 0 exDb none 0)).1 ∧
    specChapterInv (applyStep initState (Step.load "b" "c1" ["c1", "c2"] 0 exDb none 0)).1 :=
  C9_chapter_index_invariant initState (Step.load "b" "c1" ["c1", "c2"] 0 exDb none 0)
    (by intro hb; simp [initState] at hb)
    (by exact ⟨by decide, Or.inr (by decide)⟩)

/-- C9 counterexample: the claim as stated fails — `loadChapter` with a
chapter id that is in the caller's list but has no local path, while
another chapter has one, leaves `chapterId = c2` absent from the rebuilt
list `[c1]` with `chapterIndex = 0`, so the index does not equal the
position of the chapter id in the engine's list. -/
theorem C9_counterexample :
    "c2" ∈ ["c1", "c2"] ∧ ¬ specChapterInv exC9Bad := by
  refine ⟨by decide, ?_⟩
  intro h
  obtain ⟨cid, hc, hidx, hlo, hhi⟩ := h (by decide)
  have h2 : exC9Bad.chapterId = some "c2" := by decide
  rw [h2] at hc
  injection hc with hcid
  subst hcid
  have h3 : exC9Bad.chapterIndex = 0 := by decide
  have h4 : jsIndexOf exC9Bad.chapterIds "c2" = -1 := by decide
  rw [h3, h4] at hidx
  exact absurd hidx (by decide)

theorem C10_outro_flag_sticky_witness :
    Output.chapterEnd ∉ (runNEvents exTriggered exC10Events).2 ∧
    (runNEvents exTriggered exC10Events).1.skipOutroTriggered = true ∧
    (loadChapterNative exTriggered "b" "c1" ["c1", "c2"] 0 exDb none 0).1.skipOutroTriggered = false :=
  C10_outro_flag_sticky exTriggered exC10Events "b" "c1" ["c1", "c2"] 0 exDb none 0 rfl

end OfflineReader
